import Mathlib

/-! Verification of the streaming control core of the StreamSpeech ASR agent
(`agent/speech_to_text.asr.streamspeech.agent.py`) and of the SimulEval
quick-start wait-k text agent (`SimulEval/examples/quick_start/first_agent.py`).

Python floats are embedded as rationals (every quantity the claims depend on
is exactly representable), sample buffers as `List ℚ`, and text as
`List Char`.  External collaborators that are not part of the two source
files (the fairseq feature pipeline, SimulEval's `AgentStates`, the
generators' incremental-state teardown) are modelled from the spec; each such
definition carries a doc comment saying so. -/

/-- Source constant `SHIFT_SIZE = 10` (ms). -/
def SHIFT_SIZE : ℕ := 10

/-- Source constant `WINDOW_SIZE = 25` (ms). -/
def WINDOW_SIZE : ℕ := 25

/-- Source constant `ORG_SAMPLE_RATE = 48000`. -/
def ORG_SAMPLE_RATE : ℕ := 48000

/-- Source constant `SAMPLE_RATE = 16000`. -/
def SAMPLE_RATE : ℕ := 16000

/-- Embedding of the `OnlineFeatureExtractor` attributes set in `__init__`.
`feature_dim`, the device and the (never applied) `feature_transforms` are
irrelevant to every claim; `global_cmvn` holds the optional normalization
statistics (mean, std). -/
structure OnlineFeatureExtractor where
  shift_size : ℕ
  window_size : ℕ
  sample_rate : ℕ
  global_cmvn : Option (List ℚ × List ℚ)
  previous_residual_samples : List ℚ
deriving DecidableEq

/-- Source: `self.num_samples_per_shift = int(self.shift_size * self.sample_rate / 1000)`. -/
def OnlineFeatureExtractor.num_samples_per_shift (e : OnlineFeatureExtractor) : ℕ :=
  e.shift_size * e.sample_rate / 1000

/-- Source: `self.num_samples_per_window = int(self.window_size * self.sample_rate / 1000)`. -/
def OnlineFeatureExtractor.num_samples_per_window (e : OnlineFeatureExtractor) : ℕ :=
  e.window_size * e.sample_rate / 1000

/-- Source: `self.len_ms_to_samples = lambda x: x * self.sample_rate / 1000`
(true float division, no truncation). -/
def OnlineFeatureExtractor.len_ms_to_samples (e : OnlineFeatureExtractor) (x : ℕ) : ℚ :=
  ((x * e.sample_rate : ℕ) : ℚ) / 1000

/-- Python `int(...)` applied to a float: truncation toward zero. -/
def pyInt (q : ℚ) : ℤ := q.num.tdiv q.den

/-- Python slicing `xs[:e]` where the bound `e` may be negative (a negative
bound keeps all but the last `-e` elements). -/
def pySliceTo (e : ℤ) (xs : List ℚ) : List ℚ :=
  if 0 ≤ e then xs.take e.toNat else xs.take (xs.length - (-e).toNat)

/-- Source lines 71-74:
`num_frames = math.floor((len(samples) - self.len_ms_to_samples(self.window_size - self.shift_size)) / self.num_samples_per_shift)`. -/
def OnlineFeatureExtractor.num_frames (e : OnlineFeatureExtractor) (n : ℕ) : ℤ :=
  ⌊((n : ℚ) - e.len_ms_to_samples (e.window_size - e.shift_size)) /
      (e.num_samples_per_shift : ℚ)⌋

/-- Source lines 78-81:
`effective_num_samples = int(num_frames * self.len_ms_to_samples(self.shift_size) + self.len_ms_to_samples(self.window_size - self.shift_size))`. -/
def OnlineFeatureExtractor.effective_num_samples (e : OnlineFeatureExtractor) (nf : ℤ) : ℤ :=
  pyInt ((nf : ℚ) * e.len_ms_to_samples e.shift_size +
    e.len_ms_to_samples (e.window_size - e.shift_size))

/-- Modelled from the spec: `convert_waveform` (fairseq `audio_utils`, not
under `src/`) mono-mixes and resamples the sliced waveform to 16 kHz
("resampling to target rate and mono-mixing if source rate differs", spec
§4.2 step 3).  The agent always calls the extractor at the default source
rate `ORG_SAMPLE_RATE = 48000`, so the rate change is modelled as exact 3:1
decimation. -/
def convert_waveform (xs : List ℚ) : List ℚ :=
  (List.range ((xs.length + 2) / 3)).map fun i => xs.getD (3 * i) 0

/-- Modelled from the spec: frame count of `extract_fbank_features` (fairseq,
not under `src/`): one frame per full shift-window at 16 kHz (spec §4.2
step 3), i.e. a 400-sample (25 ms) window advancing by 160 samples (10 ms);
fewer samples than one window yield no frame. -/
def fbankNumFrames (m : ℕ) : ℕ :=
  if m < 400 then 0 else (m - 400) / 160 + 1

/-- Modelled from the spec: `extract_fbank_features` (fairseq, not under
`src/`); frame `i` is computed from the window of samples starting at shift
`i` ("compute one frame per shift-window ... producing a featureDim-wide
vector per frame", spec §4.2 step 3).  The frame is modelled as the window
itself; its pointwise numeric content never matters to the claims. -/
def extract_fbank_features (ys : List ℚ) : List (List ℚ) :=
  (List.range (fbankNumFrames ys.length)).map fun i => (ys.drop (160 * i)).take 400

/-- Source `OnlineFeatureExtractor.transform`: elementwise
`(input - mean) / std` when `global_cmvn` statistics are configured,
identity otherwise. -/
def OnlineFeatureExtractor.transform (e : OnlineFeatureExtractor)
    (input : List (List ℚ)) : List (List ℚ) :=
  match e.global_cmvn with
  | none => input
  | some (mean, std) => input.map fun fr => (fr.zipWith (· - ·) mean).zipWith (· / ·) std

/-- Embedding of `OnlineFeatureExtractor.__call__` (source lines 67-88),
named `call`.  The body reads only the construction-time configuration and
the `new_samples` argument and performs no attribute writes — in particular
it never touches `previous_residual_samples` — so it embeds as a pure
function of the extractor and the samples.  The waveform and fbank stages
are the spec-modelled functions above. -/
def OnlineFeatureExtractor.call (e : OnlineFeatureExtractor)
    (new_samples : List ℚ) : List (List ℚ) :=
  let samples := new_samples
  let nf := e.num_frames samples.length
  let eff := e.effective_num_samples nf
  let sliced := pySliceTo eff samples
  let waveform := convert_waveform sliced
  let output := extract_fbank_features waveform
  e.transform output

/-- Source `OnlineFeatureExtractor.clear_cache`. -/
def OnlineFeatureExtractor.clear_cache (e : OnlineFeatureExtractor) : OnlineFeatureExtractor :=
  { e with previous_residual_samples := [] }

/-- The extractor as the agent constructs it: argparse defaults
`shift_size = 10`, `window_size = 25`, `sample_rate = 48000`, with optional
cmvn statistics loaded from the config. -/
def defaultExtractor (cmvn : Option (List ℚ × List ℚ)) : OnlineFeatureExtractor :=
  { shift_size := SHIFT_SIZE, window_size := WINDOW_SIZE, sample_rate := ORG_SAMPLE_RATE,
    global_cmvn := cmvn, previous_residual_samples := [] }

/-- Actions returned by the SimulEval text agent's policy. -/
inductive TextAction where
  | read : TextAction
  | write (prediction : List Char) (finished : Bool) : TextAction
deriving DecidableEq

/-- The part of SimulEval's `AgentStates` read by `DummyWaitkTextAgent.policy`. -/
structure TextAgentStates where
  source : List (List Char)
  target : List (List Char)
  source_finished : Bool
deriving DecidableEq

/-- Source: class attribute `waitk = 3` of `DummyWaitkTextAgent`. -/
def DummyWaitkTextAgent.waitk : ℕ := 3

/-- Source: class attribute `vocab = [chr(i) for i in range(ord("A"), ord("Z") + 1)]`. -/
def DummyWaitkTextAgent.vocab : List (List Char) :=
  (List.range 26).map fun i => [Char.ofNat (65 + i)]

/-- Embedding of `DummyWaitkTextAgent.policy`; `choice` stands for the
nondeterministically drawn `secrets.choice(self.vocab)`. -/
def DummyWaitkTextAgent.policy (s : TextAgentStates) (choice : List Char) : TextAction :=
  let lagging : ℤ := (s.source.length : ℤ) - (s.target.length : ℤ)
  if (DummyWaitkTextAgent.waitk : ℤ) ≤ lagging ∨ s.source_finished = true then
    .write choice (decide (lagging ≤ 1))
  else
    .read

/-- Modelled from the spec: the part of SimulEval's `AgentStates` (repository
code not under `src/`) used by `StreamSpeechASRAgent`: the accumulated source
samples, the emitted target strings, and the two finished flags. -/
structure AgentStates where
  source : List ℚ
  target : List (List Char)
  source_finished : Bool
  target_finished : Bool
deriving DecidableEq

/-- Modelled from the spec: SimulEval's `AgentStates.reset` (repository code
not under `src/`) returns the stream and target state to the empty initial
condition so the session is "ready for next utterance" (spec §4.5, §7):
source and target cleared, both finished flags back to `false`. -/
def AgentStates.reset (_s : AgentStates) : AgentStates :=
  { source := [], target := [], source_finished := false, target_finished := false }

/-- The per-session mutable attributes of `StreamSpeechASRAgent` assigned in
`reset` (source lines 294-314), plus the harness-owned `states` and two
Booleans standing for whether the model-side incremental states of
`generator_mt` and `ctc_generator` are released. -/
structure ASRSession where
  src_seg_num : ℕ
  tgt_subwords_indices : Option (List ℤ)
  src_ctc_indices : Option (List ℤ)
  src_ctc_prefix_length : ℕ
  tgt_ctc_prefix_length : ℕ
  tgt_units_indices : Option (List ℤ)
  prev_output_tokens_mt : Option (List ℤ)
  tgt_text : List Char
  asr_text : List Char
  mt_decoder_out : Option (List ℤ)
  unit : Option (List ℤ)
  wav : List ℚ
  post_transcription : List Char
  unfinished_wav : Option (List ℚ)
  states : AgentStates
  mt_incremental_states_cleared : Bool
  ctc_incremental_states_cleared : Bool
deriving DecidableEq

/-- Modelled from the spec: `reset_incremental_states` on the underlying
generators (`agent.sequence_generator`, repository code not under `src/`)
releases model-side incremental decoder state and may fail; the Boolean
selects the failure behavior ("failures while releasing underlying
model-side incremental state", spec §4.5). -/
def reset_incremental_states (fails : Bool) : Except (List Char) Unit :=
  if fails then .error ['e', 'r', 'r'] else .ok ()

/-- Embedding of `StreamSpeechASRAgent.reset` (source lines 294-314): every
session attribute is set back to its initial value, `self.states.reset()` is
called, and the two `reset_incremental_states` calls run inside
`try: ... except: pass` — an exception in the first call skips the second,
and either exception is swallowed, so `reset` itself always returns. -/
def StreamSpeechASRAgent.reset (s : ASRSession) (mtFails ctcFails : Bool) : ASRSession :=
  let base : ASRSession :=
    { src_seg_num := 0
      tgt_subwords_indices := none
      src_ctc_indices := none
      src_ctc_prefix_length := 0
      tgt_ctc_prefix_length := 0
      tgt_units_indices := none
      prev_output_tokens_mt := none
      tgt_text := []
      asr_text := []
      mt_decoder_out := none
      unit := none
      wav := []
      post_transcription := []
      unfinished_wav := none
      states := s.states.reset
      mt_incremental_states_cleared := s.mt_incremental_states_cleared
      ctc_incremental_states_cleared := s.ctc_incremental_states_cleared }
  match reset_incremental_states mtFails with
  | .error _ => base
  | .ok _ =>
    let base := { base with mt_incremental_states_cleared := true }
    match reset_incremental_states ctcFails with
    | .error _ => base
    | .ok _ => { base with ctc_incremental_states_cleared := true }

/-- Source constant `BOW_PREFIX = "▁"`, the sentencepiece sub-word
boundary marker. -/
def bowMark : Char := '▁'

/-- Python `str.replace(pat, rep)`: scan left to right replacing
non-overlapping occurrences.  The fuel argument starts at the string length;
it only decreases after at least one consumed character, so it never runs
out for the nonempty patterns used below. -/
def pyReplaceGo : ℕ → List Char → List Char → List Char → List Char
  | _, [], _, _ => []
  | 0, s, _, _ => s
  | fuel + 1, c :: rest, pat, rep =>
    if pat.isPrefixOf (c :: rest) then rep ++ pyReplaceGo fuel ((c :: rest).drop pat.length) pat rep
    else c :: pyReplaceGo fuel rest pat rep

/-- Python `s.replace(pat, rep)`. -/
def pyReplace (s pat rep : List Char) : List Char :=
  pyReplaceGo s.length s pat rep

/-- Source lines 409-416: the normalized ASR text — `"".join(tokens)`, then
`"_"` and the sub-word boundary marker collapsed to a space, `"<unk>"`
replaced by a space, `"<s>"` and `"</s>"` stripped, and one leading space
trimmed if present.  In the source this string is used only for the optional
`asr.txt` logging; the emitted delta is computed from `" ".join(tokens)`
instead. -/
def normalizeAsrText (tokens : List (List Char)) : List Char :=
  let text := tokens.flatten
  let text := pyReplace text ['_'] [' ']
  let text := pyReplace text [bowMark] [' ']
  let text := pyReplace text ['<', 'u', 'n', 'k', '>'] [' ']
  let text := pyReplace text ['<', 's', '>'] []
  let text := pyReplace text ['<', '/', 's', '>'] []
  match text with
  | ' ' :: rest => rest
  | other => other

/-- Source line 421: `text = " ".join(tokens)` — the text the ASR track
actually diffs against. -/
def asrJoin (tokens : List (List Char)) : List Char :=
  List.intercalate [' '] tokens

/-- Source line 422: `new_text = text[len(self.asr_text):]` — the emitted
delta of the ASR decode track. -/
def asrDelta (stored text : List Char) : List Char :=
  text.drop stored.length

/-- Actions returned by `StreamSpeechASRAgent.policy`. -/
inductive ASRAction where
  | read : ASRAction
  | write (payload : List Char) (finished : Bool) : ASRAction
deriving DecidableEq

/-- Embedding of `StreamSpeechASRAgent.policy` (source lines 384-432) as a
function from the session to the returned action and the session afterwards.
`cmvn` is the extractor configuration; `tokens` stands for the token strings
decoded by the external `asr_ctc_generator` from the encoder output this
turn; `mtFails`/`ctcFails` select the failure behavior of the incremental
state teardown inside `reset`.  The normalized text of lines 409-416 (see
`normalizeAsrText`) only feeds the optional file log, so it does not appear
in the returned action; the delta is diffed from `" ".join(tokens)`
(line 421). -/
def StreamSpeechASRAgent.policy (cmvn : Option (List ℚ × List ℚ)) (s : ASRSession)
    (tokens : List (List Char)) (mtFails ctcFails : Bool) : ASRAction × ASRSession :=
  let feature := (defaultExtractor cmvn).call s.states.source
  if feature.length = 0 ∧ s.states.source_finished = false then
    (.read, s)
  else
    let text := asrJoin tokens
    let new_text := asrDelta s.asr_text text
    let s1 := { s with asr_text := text }
    if s1.states.source_finished = true then
      let s2 := { s1 with states.target_finished := true }
      let s3 := StreamSpeechASRAgent.reset s2 mtFails ctcFails
      (.write new_text s3.states.target_finished, s3)
    else
      (.write new_text s1.states.target_finished, s1)

/-- A session at the end of an utterance: empty buffers, empty stored ASR
text, source marked finished. -/
def finishedSession : ASRSession :=
  { src_seg_num := 0, tgt_subwords_indices := none, src_ctc_indices := none,
    src_ctc_prefix_length := 0, tgt_ctc_prefix_length := 0, tgt_units_indices := none,
    prev_output_tokens_mt := none, tgt_text := [], asr_text := [],
    mt_decoder_out := none, unit := none, wav := [], post_transcription := [],
    unfinished_wav := none,
    states := { source := [], target := [], source_finished := true, target_finished := false },
    mt_incremental_states_cleared := false, ctc_incremental_states_cleared := false }

/-- A session in mid-utterance with an empty buffer: nothing read yet,
source not finished. -/
def emptySession : ASRSession :=
  { src_seg_num := 0, tgt_subwords_indices := none, src_ctc_indices := none,
    src_ctc_prefix_length := 0, tgt_ctc_prefix_length := 0, tgt_units_indices := none,
    prev_output_tokens_mt := none, tgt_text := [], asr_text := [],
    mt_decoder_out := none, unit := none, wav := [], post_transcription := [],
    unfinished_wav := none,
    states := { source := [], target := [], source_finished := false, target_finished := false },
    mt_incremental_states_cleared := false, ctc_incremental_states_cleared := false }

/-- The ASR decode track over one session: starting from a stored text, fold
over the per-turn decoder texts, collecting the per-turn deltas exactly as
`policy` computes them (`new_text = text[len(self.asr_text):]` followed by
`self.asr_text = text`). -/
def trackRun : List Char → List (List Char) → List Char
  | _, [] => []
  | stored, t :: ts => asrDelta stored t ++ trackRun t ts

/-- The finalized text at session end: the last per-turn decoder text. -/
def finalTextOf (texts : List (List Char)) : List Char :=
  (texts.getLast?).getD []

/-- The ordered union of frame sequences produced by successive extractor
calls: keep the frames already collected and append the new frames beyond
them. -/
def mergeFrames (acc new : List (List ℚ)) : List (List ℚ) :=
  acc ++ new.drop acc.length

/-- The union of the frames obtained from repeated extractor calls on the
prefixes of `xs` whose lengths are listed in `ls`. -/
def unionOfCalls (cmvn : Option (List ℚ × List ℚ)) (xs : List ℚ) (ls : List ℕ) :
    List (List ℚ) :=
  ls.foldl (fun acc l => mergeFrames acc ((defaultExtractor cmvn).call (xs.take l))) []

/-- C9: `OnlineFeatureExtractor.__call__` neither reads nor writes
`previous_residual_samples`: the returned frames depend only on the samples
argument and the construction-time configuration (replacing the stored
residual by anything, or clearing it with `clear_cache`, leaves the result
unchanged), and `clear_cache` only empties the residual field. -/
theorem c9_call_ignores_residual_state (e : OnlineFeatureExtractor) (r xs : List ℚ) :
    ({ e with previous_residual_samples := r } : OnlineFeatureExtractor).call xs = e.call xs
    ∧ e.clear_cache.call xs = e.call xs
    ∧ e.clear_cache = { e with previous_residual_samples := [] } :=
  ⟨rfl, rfl, rfl⟩

/-- C6: with the lag threshold `waitk`, whenever
`len(states.source) - len(states.target) < waitk` and the source is not
finished, `DummyWaitkTextAgent.policy` returns a `ReadAction` — in
particular no `WriteAction` (finished or not) is emitted in that situation. -/
theorem c6_lag_bound_write_gating (s : TextAgentStates) (choice : List Char)
    (hlag : (s.source.length : ℤ) - (s.target.length : ℤ) < (DummyWaitkTextAgent.waitk : ℤ))
    (hsf : s.source_finished = false) :
    DummyWaitkTextAgent.policy s choice = TextAction.read := by
  simp only [DummyWaitkTextAgent.policy, DummyWaitkTextAgent.waitk] at *
  rw [if_neg]
  rintro (h | h)
  · omega
  · rw [hsf] at h
    exact Bool.false_ne_true h

/-- C6 witness: a concrete unfinished state with lagging 1 < 3 yields READ. -/
theorem c6_lag_bound_write_gating_witness :
    DummyWaitkTextAgent.policy ⟨[['a']], [], false⟩ ['A'] = TextAction.read :=
  c6_lag_bound_write_gating ⟨[['a']], [], false⟩ ['A'] (by decide) rfl

/-- C10 counterexample: the claim's "in particular" part is false — with
`waitk = 3` there is no reachable state with the source unfinished in which
the policy returns a `WriteAction` with `finished = true`, because an
unfinished-source write requires lagging ≥ 3 while `finished` requires
lagging ≤ 1. -/
theorem c10_counterexample :
    ¬ ∃ (s : TextAgentStates) (choice p : List Char),
        s.source_finished = false
        ∧ DummyWaitkTextAgent.policy s choice = TextAction.write p true := by
  rintro ⟨s, choice, p, hsf, hw⟩
  simp only [DummyWaitkTextAgent.policy, DummyWaitkTextAgent.waitk, hsf] at hw
  split at hw
  case isTrue hcond =>
    rw [TextAction.write.injEq] at hw
    obtain ⟨-, hd⟩ := hw
    rw [decide_eq_true_eq] at hd
    rcases hcond with h3 | habs
    · omega
    · exact Bool.false_ne_true habs
  case isFalse hcond =>
    exact TextAction.noConfusion hw

/-- C10 amended: every `WriteAction` returned by `DummyWaitkTextAgent.policy`
carries `finished = (len(states.source) - len(states.target) <= 1)`
regardless of `source_finished`; however, with `waitk = 3` a `WriteAction`
with `finished = true` can only occur when the source is finished, since a
write with the source unfinished requires lagging ≥ 3 and hence
`finished = false`. -/
theorem c10_amended_finished_flag (s : TextAgentStates) (choice p : List Char) (f : Bool)
    (h : DummyWaitkTextAgent.policy s choice = TextAction.write p f) :
    f = decide ((s.source.length : ℤ) - (s.target.length : ℤ) ≤ 1)
    ∧ (s.source_finished = false → f = false) := by
  simp only [DummyWaitkTextAgent.policy, DummyWaitkTextAgent.waitk] at h
  split at h
  case isFalse hcond =>
    exact TextAction.noConfusion h
  case isTrue hcond =>
    rw [TextAction.write.injEq] at h
    obtain ⟨-, hf⟩ := h
    refine ⟨hf.symm, fun hsf => ?_⟩
    rcases hcond with h3 | habs
    · rw [← hf, decide_eq_false_iff_not]
      omega
    · rw [hsf] at habs
      exact absurd habs Bool.false_ne_true

/-- C10 witness: with the source finished and lagging 0 the policy writes
with `finished = true = decide (0 ≤ 1)`. -/
theorem c10_amended_finished_flag_witness :
    (true : Bool)
      = decide ((((⟨[], [], true⟩ : TextAgentStates).source.length : ℤ)
          - ((⟨[], [], true⟩ : TextAgentStates).target.length : ℤ)) ≤ 1)
    ∧ ((⟨[], [], true⟩ : TextAgentStates).source_finished = false → (true : Bool) = false) :=
  c10_amended_finished_flag ⟨[], [], true⟩ ['A'] ['A'] true (by decide)

/-- C8: `StreamSpeechASRAgent.reset` never raises — both failure behaviors of
the underlying incremental-state teardown are caught and discarded — and
afterwards the finalized texts, the emitted-prefix tracking, the carried
decoder state and the harness states are back to the empty initial
condition. -/
theorem c8_reset_never_fails_back_to_empty (s : ASRSession) (mtFails ctcFails : Bool) :
    (StreamSpeechASRAgent.reset s mtFails ctcFails).asr_text = []
    ∧ (StreamSpeechASRAgent.reset s mtFails ctcFails).tgt_text = []
    ∧ (StreamSpeechASRAgent.reset s mtFails ctcFails).src_ctc_prefix_length = 0
    ∧ (StreamSpeechASRAgent.reset s mtFails ctcFails).tgt_ctc_prefix_length = 0
    ∧ (StreamSpeechASRAgent.reset s mtFails ctcFails).src_seg_num = 0
    ∧ (StreamSpeechASRAgent.reset s mtFails ctcFails).tgt_subwords_indices = none
    ∧ (StreamSpeechASRAgent.reset s mtFails ctcFails).src_ctc_indices = none
    ∧ (StreamSpeechASRAgent.reset s mtFails ctcFails).tgt_units_indices = none
    ∧ (StreamSpeechASRAgent.reset s mtFails ctcFails).prev_output_tokens_mt = none
    ∧ (StreamSpeechASRAgent.reset s mtFails ctcFails).mt_decoder_out = none
    ∧ (StreamSpeechASRAgent.reset s mtFails ctcFails).unit = none
    ∧ (StreamSpeechASRAgent.reset s mtFails ctcFails).wav = []
    ∧ (StreamSpeechASRAgent.reset s mtFails ctcFails).post_transcription = []
    ∧ (StreamSpeechASRAgent.reset s mtFails ctcFails).unfinished_wav = none
    ∧ (StreamSpeechASRAgent.reset s mtFails ctcFails).states
        = { source := [], target := [], source_finished := false, target_finished := false } := by
  cases mtFails <;> cases ctcFails <;>
    exact ⟨rfl, rfl, rfl, rfl, rfl, rfl, rfl, rfl, rfl, rfl, rfl, rfl, rfl, rfl, rfl⟩

/-- C2 evaluation at the failing input: on a turn with the source finished,
the returned `WriteAction` carries `finished = false`, not `true` — setting
`self.states.target_finished = True` is undone by `self.reset()` (which
resets the harness states) before the flag is read into the `WriteAction` —
even though the session state is indeed reset before returning. -/
theorem c2_final_write_finished_flag_eval :
    (StreamSpeechASRAgent.policy none finishedSession [['h', 'i']] false false).1
      = ASRAction.write ['h', 'i'] false
    ∧ (StreamSpeechASRAgent.policy none finishedSession [['h', 'i']] false false).2.asr_text = []
    ∧ (StreamSpeechASRAgent.policy none finishedSession [['h', 'i']] false false).2.states
        = { source := [], target := [], source_finished := false, target_finished := false } := by
  refine ⟨?_, ?_, ?_⟩ <;>
    simp [StreamSpeechASRAgent.policy, StreamSpeechASRAgent.reset, finishedSession,
      AgentStates.reset, reset_incremental_states, asrJoin, asrDelta, List.intercalate]

/-- C1 counterexample: with stored `asr_text = ""` and the single decoded
token `"▁hi"`, the emitted payload is `"▁hi"` (a suffix of
`" ".join(tokens)`), while the normalized text of lines 409-416 is `"hi"`;
the payload is not a suffix of the normalized text, so the delta is not
diffed on the normalized text. -/
theorem c1_counterexample :
    (StreamSpeechASRAgent.policy none finishedSession [[bowMark, 'h', 'i']] false false).1
      = ASRAction.write [bowMark, 'h', 'i'] false
    ∧ normalizeAsrText [[bowMark, 'h', 'i']] = ['h', 'i']
    ∧ List.isSuffixOf [bowMark, 'h', 'i'] (normalizeAsrText [[bowMark, 'h', 'i']]) = false := by
  refine ⟨?_, by decide, by decide⟩
  simp [StreamSpeechASRAgent.policy, StreamSpeechASRAgent.reset, finishedSession,
    AgentStates.reset, reset_incremental_states, asrJoin, asrDelta, List.intercalate]

/-- C1 amended: the emitted delta is computed by diffing against the
previously stored output using the space-joined raw token strings
`" ".join(tokens)` — not the normalized text, which only feeds the optional
file log — so the payload of every `WriteAction` is a suffix of
`" ".join(tokens)`. -/
theorem c1_amended_suffix_of_joined (cmvn : Option (List ℚ × List ℚ)) (s : ASRSession)
    (tokens : List (List Char)) (mtFails ctcFails : Bool) (p : List Char) (f : Bool)
    (h : (StreamSpeechASRAgent.policy cmvn s tokens mtFails ctcFails).1 = ASRAction.write p f) :
    p <:+ asrJoin tokens := by
  simp only [StreamSpeechASRAgent.policy] at h
  split at h
  · exact absurd h (by simp)
  · split at h
    all_goals
      simp only [ASRAction.write.injEq] at h
      obtain ⟨hp, -⟩ := h
      rw [← hp]
      exact ⟨(asrJoin tokens).take s.asr_text.length, List.take_append_drop _ _⟩

/-- C1 amended witness: a concrete finished turn emitting `"hi"`, a suffix of
`" ".join(["hi"])`. -/
theorem c1_amended_suffix_of_joined_witness :
    ['h', 'i'] <:+ asrJoin [['h', 'i']] :=
  c1_amended_suffix_of_joined none finishedSession [['h', 'i']] false false ['h', 'i'] false
    (by simp [StreamSpeechASRAgent.policy, StreamSpeechASRAgent.reset, finishedSession,
      AgentStates.reset, reset_incremental_states, asrJoin, asrDelta, List.intercalate])

theorem pyInt_intCast (k : ℤ) : pyInt ((k : ℤ) : ℚ) = k := by
  simp [pyInt, Rat.num_intCast, Rat.den_intCast]

theorem transform_length (e : OnlineFeatureExtractor) (input : List (List ℚ)) :
    (e.transform input).length = input.length := by
  unfold OnlineFeatureExtractor.transform
  cases h : e.global_cmvn with
  | none => rfl
  | some ms =>
    cases ms with
    | mk mean std => simp

theorem extract_fbank_length (ys : List ℚ) :
    (extract_fbank_features ys).length = fbankNumFrames ys.length := by
  simp [extract_fbank_features]

theorem convert_waveform_length (xs : List ℚ) :
    (convert_waveform xs).length = (xs.length + 2) / 3 := by
  simp [convert_waveform]

theorem pySliceTo_length (e : ℤ) (xs : List ℚ) :
    (pySliceTo e xs).length
      = if 0 ≤ e then min e.toNat xs.length else xs.length - (-e).toNat := by
  unfold pySliceTo
  split <;> simp [List.length_take]

theorem num_frames_default (c : Option (List ℚ × List ℚ)) (n : ℕ) :
    (defaultExtractor c).num_frames n = ((n : ℤ) - 720) / 480 := by
  unfold OnlineFeatureExtractor.num_frames
  have h1 : (defaultExtractor c).len_ms_to_samples
      ((defaultExtractor c).window_size - (defaultExtractor c).shift_size) = (720 : ℚ) := by
    norm_num [OnlineFeatureExtractor.len_ms_to_samples, defaultExtractor,
      SHIFT_SIZE, WINDOW_SIZE, ORG_SAMPLE_RATE]
  have h2 : ((defaultExtractor c).num_samples_per_shift : ℚ) = ((480 : ℕ) : ℚ) := by
    norm_num [OnlineFeatureExtractor.num_samples_per_shift, defaultExtractor,
      SHIFT_SIZE, ORG_SAMPLE_RATE]
  rw [h1, h2]
  have h3 : ((n : ℚ) - 720) = (((n : ℤ) - 720 : ℤ) : ℚ) := by push_cast; ring
  rw [h3, Rat.floor_intCast_div_natCast]
  norm_num

theorem effective_default (c : Option (List ℚ × List ℚ)) (k : ℤ) :
    (defaultExtractor c).effective_num_samples k = 480 * k + 720 := by
  unfold OnlineFeatureExtractor.effective_num_samples
  have h1 : (defaultExtractor c).len_ms_to_samples (defaultExtractor c).shift_size = (480 : ℚ) := by
    norm_num [OnlineFeatureExtractor.len_ms_to_samples, defaultExtractor,
      SHIFT_SIZE, ORG_SAMPLE_RATE]
  have h2 : (defaultExtractor c).len_ms_to_samples
      ((defaultExtractor c).window_size - (defaultExtractor c).shift_size) = (720 : ℚ) := by
    norm_num [OnlineFeatureExtractor.len_ms_to_samples, defaultExtractor,
      SHIFT_SIZE, WINDOW_SIZE, ORG_SAMPLE_RATE]
  rw [h1, h2]
  have h3 : ((k : ℚ) * 480 + 720) = (((480 * k + 720 : ℤ)) : ℚ) := by push_cast; ring
  rw [h3, pyInt_intCast]

theorem call_default_length (c : Option (List ℚ × List ℚ)) (xs : List ℚ) :
    ((defaultExtractor c).call xs).length
      = if xs.length < 1200 then 0 else (xs.length - 720) / 480 := by
  simp only [OnlineFeatureExtractor.call, transform_length, extract_fbank_length,
    convert_waveform_length, num_frames_default, effective_default, pySliceTo_length,
    fbankNumFrames]
  split_ifs <;> omega

theorem call_default_nil (c : Option (List ℚ × List ℚ)) (xs : List ℚ)
    (h : xs.length < 1200) : (defaultExtractor c).call xs = [] := by
  have hl := call_default_length c xs
  rw [if_pos h] at hl
  exact List.length_eq_zero.mp hl

/-- C7: on a turn where the buffered samples yield zero new feature frames
and the source stream is not finished, `StreamSpeechASRAgent.policy` returns
a `ReadAction` and the session — decode-track texts, emitted-prefix lengths
and carried incremental state included — is returned unchanged. -/
theorem c7_no_new_frames_read_no_mutation (cmvn : Option (List ℚ × List ℚ)) (s : ASRSession)
    (tokens : List (List Char)) (mtFails ctcFails : Bool)
    (h0 : ((defaultExtractor cmvn).call s.states.source).length = 0)
    (hsf : s.states.source_finished = false) :
    StreamSpeechASRAgent.policy cmvn s tokens mtFails ctcFails = (ASRAction.read, s) := by
  simp only [StreamSpeechASRAgent.policy]
  rw [if_pos ⟨h0, hsf⟩]

/-- C7 witness: the empty unfinished session yields READ unchanged. -/
theorem c7_no_new_frames_read_no_mutation_witness :
    StreamSpeechASRAgent.policy none emptySession [['h', 'i']] false false
      = (ASRAction.read, emptySession) :=
  c7_no_new_frames_read_no_mutation none emptySession [['h', 'i']] false false
    (by show ((defaultExtractor none).call []).length = 0
        rw [call_default_nil none [] (by norm_num)]
        rfl)
    rfl

/-- C4 counterexample: over a session whose second decoder output `"a"` does
not extend the first output `"ab"`, the concatenated deltas are `"ab"` while
the final finalized text is `"a"` — the claim's unconditional concatenation
property fails on the code's `text[len(self.asr_text):]` diffing. -/
theorem c4_counterexample :
    ¬ (trackRun [] [['a', 'b'], ['a']] = finalTextOf [['a', 'b'], ['a']]) := by
  decide

theorem trackRun_chain (ts : List (List Char)) : ∀ stored : List Char,
    List.Chain' (· <+: ·) (stored :: ts) →
    stored ++ trackRun stored ts = ((stored :: ts).getLast?).getD [] := by
  induction ts with
  | nil =>
    intro stored _
    simp [trackRun]
  | cons t ts ih =>
    intro stored hch
    rw [List.chain'_cons] at hch
    obtain ⟨hpre, hch⟩ := hch
    obtain ⟨u, hu⟩ := hpre
    have hd : asrDelta stored t = u := by
      show t.drop stored.length = u
      rw [← hu, List.drop_left]
    calc stored ++ trackRun stored (t :: ts)
        = (stored ++ asrDelta stored t) ++ trackRun t ts := by
          show stored ++ (asrDelta stored t ++ trackRun t ts) = _
          rw [List.append_assoc]
      _ = t ++ trackRun t ts := by rw [hd, hu]
      _ = ((t :: ts).getLast?).getD [] := ih t hch
      _ = ((stored :: t :: ts).getLast?).getD [] := by rw [List.getLast?_cons_cons]

/-- C4 amended: provided each turn's decoder text extends the previous one
(each stored text is a prefix of the next — prefix-monotone decoding),
concatenating all per-turn deltas over a session equals the final finalized
text at session end; and computing the delta with an unchanged text (no
intervening advance) always yields the empty suffix. -/
theorem c4_amended_delta_monotonicity (texts : List (List Char))
    (h : List.Chain' (· <+: ·) ([] :: texts)) :
    trackRun [] texts = finalTextOf texts
    ∧ ∀ t : List Char, asrDelta t t = [] := by
  constructor
  · have hrun := trackRun_chain texts [] h
    rw [List.nil_append] at hrun
    cases texts with
    | nil => simp [trackRun, finalTextOf]
    | cons a ts =>
      rw [hrun, List.getLast?_cons_cons]
      rfl
  · intro t
    simp [asrDelta]

/-- C4 amended witness: the prefix-monotone session `["a", "ab"]`
concatenates to the final text `"ab"`. -/
theorem c4_amended_delta_monotonicity_witness :
    trackRun [] [['a'], ['a', 'b']] = finalTextOf [['a'], ['a', 'b']]
    ∧ ∀ t : List Char, asrDelta t t = [] :=
  c4_amended_delta_monotonicity [['a'], ['a', 'b']] (by simp [List.chain'_cons])

theorem transform_nil (e : OnlineFeatureExtractor) : e.transform [] = [] :=
  List.length_eq_zero.mp (transform_length e [])

theorem transform_take (e : OnlineFeatureExtractor) (fr : List (List ℚ)) (k : ℕ) :
    e.transform (fr.take k) = (e.transform fr).take k := by
  unfold OnlineFeatureExtractor.transform
  cases h : e.global_cmvn with
  | none => rfl
  | some ms =>
    cases ms with
    | mk mean std => simp [List.map_take]

theorem fbankNumFrames_window_le (i r : ℕ) (hi : i < fbankNumFrames r) :
    160 * i + 400 ≤ r := by
  unfold fbankNumFrames at hi
  split at hi <;> omega

theorem convert_waveform_take (m : ℕ) (xs : List ℚ) (h : m ≤ xs.length) :
    convert_waveform (xs.take m) = (convert_waveform xs).take ((m + 2) / 3) := by
  unfold convert_waveform
  rw [List.length_take, min_eq_left h, ← List.map_take, List.take_range,
    min_eq_left (by omega : (m + 2) / 3 ≤ (xs.length + 2) / 3)]
  apply List.map_congr_left
  intro i hi
  rw [List.mem_range] at hi
  have h3 : 3 * i < m := by omega
  rw [List.getD_eq_getElem?_getD, List.getD_eq_getElem?_getD, List.getElem?_take, if_pos h3]

theorem extract_fbank_take (r : ℕ) (ys : List ℚ) (h : r ≤ ys.length) :
    extract_fbank_features (ys.take r) = (extract_fbank_features ys).take (fbankNumFrames r) := by
  unfold extract_fbank_features
  rw [List.length_take, min_eq_left h, ← List.map_take, List.take_range,
    min_eq_left (by
      unfold fbankNumFrames
      split_ifs <;> omega)]
  apply List.map_congr_left
  intro i hi
  rw [List.mem_range] at hi
  have hwin : 160 * i + 400 ≤ r := fbankNumFrames_window_le i r hi
  rw [List.drop_take, List.take_take, min_eq_left (by omega : 400 ≤ r - 160 * i)]

theorem call_default_eq (c : Option (List ℚ × List ℚ)) (xs : List ℚ) :
    (defaultExtractor c).call xs
      = (defaultExtractor c).transform
          ((List.range (if xs.length < 1200 then 0 else (xs.length - 720) / 480)).map
            fun i => ((convert_waveform xs).drop (160 * i)).take 400) := by
  by_cases hm : xs.length < 1200
  · rw [if_pos hm, List.range_zero, List.map_nil, call_default_nil c xs hm, transform_nil]
  · rw [if_neg hm]
    push_neg at hm
    simp only [OnlineFeatureExtractor.call]
    rw [num_frames_default, effective_default]
    set k : ℤ := ((xs.length : ℤ) - 720) / 480 with hk
    have hE : (0 : ℤ) ≤ 480 * k + 720 := by omega
    unfold pySliceTo
    rw [if_pos hE]
    set En : ℕ := (480 * k + 720).toNat with hEn
    have hEnle : En ≤ xs.length := by omega
    rw [convert_waveform_take En xs hEnle]
    set R : ℕ := (En + 2) / 3 with hR
    have hRle : R ≤ (convert_waveform xs).length := by
      rw [convert_waveform_length]
      omega
    rw [extract_fbank_take R (convert_waveform xs) hRle]
    congr 1
    unfold extract_fbank_features
    rw [← List.map_take, List.take_range]
    have hcount : min (fbankNumFrames R) (fbankNumFrames (convert_waveform xs).length)
        = (xs.length - 720) / 480 := by
      rw [convert_waveform_length]
      unfold fbankNumFrames
      split_ifs <;> omega
    rw [hcount]

theorem call_default_take (c : Option (List ℚ × List ℚ)) (xs : List ℚ) (m : ℕ)
    (h : m ≤ xs.length) :
    (defaultExtractor c).call (xs.take m)
      = ((defaultExtractor c).call xs).take (if m < 1200 then 0 else (m - 720) / 480) := by
  rw [call_default_eq c (xs.take m), call_default_eq c xs, List.length_take, min_eq_left h,
    ← transform_take]
  congr 1
  rw [← List.map_take, List.take_range]
  by_cases hm : m < 1200
  · rw [if_pos hm]
    simp
  · rw [if_neg hm, if_neg (by omega : ¬ xs.length < 1200)]
    push_neg at hm
    rw [min_eq_left (by omega : (m - 720) / 480 ≤ (xs.length - 720) / 480)]
    apply List.map_congr_left
    intro i hi
    rw [List.mem_range] at hi
    rw [convert_waveform_take m xs h, List.drop_take, List.take_take,
      min_eq_left (by omega : 400 ≤ (m + 2) / 3 - 160 * i)]

/-- C3: `OnlineFeatureExtractor.__call__` computes
`numFrames = floor((len(samples) - (samplesPerWindow - samplesPerShift)) / samplesPerShift)`
(stated with `ℤ` division by the positive `samplesPerShift`, which is floor
division), for every configuration whose millisecond-to-sample conversions
are exact (in particular the agent's defaults 10/25/48000); and whenever
`numFrames ≤ 0` the call returns an empty sequence of feature frames. -/
theorem c3_num_frames_formula (e : OnlineFeatureExtractor) (cmvn : Option (List ℚ × List ℚ))
    (xs : List ℚ)
    (hws : e.shift_size ≤ e.window_size)
    (hs : 1000 ∣ e.shift_size * e.sample_rate)
    (hw : 1000 ∣ e.window_size * e.sample_rate) :
    e.num_frames xs.length
      = ((xs.length : ℤ)
          - ((e.num_samples_per_window : ℤ) - (e.num_samples_per_shift : ℤ)))
          / (e.num_samples_per_shift : ℤ)
    ∧ ((defaultExtractor cmvn).num_frames xs.length ≤ 0
        → (defaultExtractor cmvn).call xs = []) := by
  constructor
  · unfold OnlineFeatureExtractor.num_frames
    have hcast : e.len_ms_to_samples (e.window_size - e.shift_size)
        = ((e.num_samples_per_window : ℚ) - (e.num_samples_per_shift : ℚ)) := by
      unfold OnlineFeatureExtractor.len_ms_to_samples OnlineFeatureExtractor.num_samples_per_window
        OnlineFeatureExtractor.num_samples_per_shift
      rw [Nat.sub_mul, Nat.cast_sub (mul_le_mul_right' hws e.sample_rate),
        Nat.cast_div hw (by norm_num), Nat.cast_div hs (by norm_num)]
      ring
    rw [hcast]
    have hnum : ((xs.length : ℚ)
          - ((e.num_samples_per_window : ℚ) - (e.num_samples_per_shift : ℚ)))
        = ((((xs.length : ℤ)
          - ((e.num_samples_per_window : ℤ) - (e.num_samples_per_shift : ℤ))) : ℤ) : ℚ) := by
      push_cast
      ring
    rw [hnum, Rat.floor_intCast_div_natCast]
  · intro hnf
    apply call_default_nil
    rw [num_frames_default] at hnf
    omega

/-- C3 witness: the default extractor on a 1-sample buffer — the formula
gives `floor((1 - 720) / 480) = -2 ≤ 0` and the call returns no frames. -/
theorem c3_num_frames_formula_witness :
    (defaultExtractor none).num_frames ([(0 : ℚ)].length)
      = ((([(0 : ℚ)].length : ℤ))
          - (((defaultExtractor none).num_samples_per_window : ℤ)
              - ((defaultExtractor none).num_samples_per_shift : ℤ)))
          / ((defaultExtractor none).num_samples_per_shift : ℤ)
    ∧ (defaultExtractor none).call [(0 : ℚ)] = [] :=
  ⟨(c3_num_frames_formula (defaultExtractor none) none [(0 : ℚ)] (by decide) (by decide)
      (by decide)).1,
   (c3_num_frames_formula (defaultExtractor none) none [(0 : ℚ)] (by decide) (by decide)
      (by decide)).2
    (by rw [num_frames_default]
        decide)⟩

theorem mergeFrames_of_le (a b : List (List ℚ)) (h : b.length ≤ a.length) :
    mergeFrames a b = a := by
  unfold mergeFrames
  rw [List.drop_eq_nil_of_le h, List.append_nil]

theorem mergeFrames_of_isPrefix (a b : List (List ℚ)) (h : a <+: b) :
    mergeFrames a b = b := by
  obtain ⟨t, ht⟩ := h
  unfold mergeFrames
  rw [← ht, List.drop_left]

theorem call_take_isPrefix (c : Option (List ℚ × List ℚ)) (xs : List ℚ) (l : ℕ)
    (h : l ≤ xs.length) :
    (defaultExtractor c).call (xs.take l) <+: (defaultExtractor c).call xs := by
  rw [call_default_take c xs l h]
  exact ⟨_, List.take_append_drop _ _⟩

theorem foldl_merge_isPrefix (c : Option (List ℚ × List ℚ)) (xs : List ℚ) (ls : List ℕ) :
    ∀ acc : List (List ℚ),
      acc <+: (defaultExtractor c).call xs →
      (∀ l ∈ ls, l ≤ xs.length) →
      ls.foldl (fun a l => mergeFrames a ((defaultExtractor c).call (xs.take l))) acc
        <+: (defaultExtractor c).call xs := by
  induction ls with
  | nil =>
    intro acc hacc _
    exact hacc
  | cons l ls ih =>
    intro acc hacc hle
    rw [List.foldl_cons]
    have hcl := call_take_isPrefix c xs l (hle l (List.mem_cons_self l ls))
    have hmerge : mergeFrames acc ((defaultExtractor c).call (xs.take l))
        <+: (defaultExtractor c).call xs := by
      rcases List.prefix_or_prefix_of_prefix hacc hcl with hab | hba
      · rw [mergeFrames_of_isPrefix _ _ hab]
        exact hcl
      · rw [mergeFrames_of_le _ _ hba.length_le]
        exact hacc
    exact ih _ hmerge fun x hx => hle x (List.mem_cons_of_mem l hx)

theorem foldl_merge_last (c : Option (List ℚ × List ℚ)) (xs : List ℚ) (ls : List ℕ) :
    ∀ acc : List (List ℚ),
      acc <+: (defaultExtractor c).call xs →
      (∀ l ∈ ls, l ≤ xs.length) →
      ls.getLast? = some xs.length →
      ls.foldl (fun a l => mergeFrames a ((defaultExtractor c).call (xs.take l))) acc
        = (defaultExtractor c).call xs := by
  induction ls with
  | nil =>
    intro acc _ _ hlast
    exact absurd hlast (by simp)
  | cons l ls ih =>
    intro acc hacc hle hlast
    rw [List.foldl_cons]
    have hcl := call_take_isPrefix c xs l (hle l (List.mem_cons_self l ls))
    have hmerge : mergeFrames acc ((defaultExtractor c).call (xs.take l))
        <+: (defaultExtractor c).call xs := by
      rcases List.prefix_or_prefix_of_prefix hacc hcl with hab | hba
      · rw [mergeFrames_of_isPrefix _ _ hab]
        exact hcl
      · rw [mergeFrames_of_le _ _ hba.length_le]
        exact hacc
    cases ls with
    | nil =>
      have hl : l = xs.length := by
        simpa using hlast
      subst hl
      rw [List.foldl_nil, List.take_length] at *
      rcases List.prefix_or_prefix_of_prefix hacc hcl with hab | hba
      · rw [mergeFrames_of_isPrefix _ _ (hab.trans hcl)]
      · rw [mergeFrames_of_isPrefix _ _ hacc]
    | cons l2 ls2 =>
      exact ih _ hmerge (fun x hx => hle x (List.mem_cons_of_mem l hx))
        (by rw [List.getLast?_cons_cons] at hlast; exact hlast)

/-- C5: chunked consumption is lossless and order-preserving — for any
sample buffer `xs` and any growing schedule of prefix lengths ending at the
full length, the ordered union of the frames produced by
`OnlineFeatureExtractor.__call__` on each prefix equals the frames produced
by a single call on all of `xs` (this is exactly how `policy` drives the
extractor: each turn passes the whole accumulated `states.source`). -/
theorem c5_chunked_extraction_lossless (cmvn : Option (List ℚ × List ℚ)) (xs : List ℚ)
    (ls : List ℕ)
    (_hgrow : List.Chain' (· ≤ ·) ls)
    (hle : ∀ l ∈ ls, l ≤ xs.length)
    (hlast : ls.getLast? = some xs.length) :
    unionOfCalls cmvn xs ls = (defaultExtractor cmvn).call xs :=
  foldl_merge_last cmvn xs ls []
    ⟨(defaultExtractor cmvn).call xs, rfl⟩ hle hlast

/-- C5 witness: two growing prefixes (240 then all 1200 samples) of a
1200-sample buffer union to the single full-buffer extraction. -/
theorem c5_chunked_extraction_lossless_witness :
    unionOfCalls none (List.replicate 1200 (0 : ℚ)) [240, 1200]
      = (defaultExtractor none).call (List.replicate 1200 (0 : ℚ)) :=
  c5_chunked_extraction_lossless none (List.replicate 1200 (0 : ℚ)) [240, 1200]
    (by simp [List.chain'_cons])
    (by intro l hl
        rw [List.length_replicate]
        rcases List.mem_cons.mp hl with rfl | hl2
        · norm_num
        · rcases List.mem_cons.mp hl2 with rfl | h3
          · norm_num
          · exact absurd h3 (List.not_mem_nil l))
    (by rw [List.length_replicate]
        rfl)
